import Mathlib

/-!
A verification development for the Hong Kong tourism assistant.

The repository ships the React presentation layer (`frontend/src`): the API
context, the Chat, Itinerary, Translate and Recommendations pages, and the
shared request/response types in `types/api.ts`.  Those parts are embedded
here directly from the TypeScript source.  The backend engine (response
cache, knowledge retriever, conversation context manager, itinerary
constraint planner, generation orchestrator) is started by the setup
scripts (`backend/main.py`) but its source is not part of the repository;
where a property concerns that engine, the corresponding definition is
modelled from the specification and says so in its doc comment.
-/

namespace Tourism

/-! ## Data model, from `frontend/src/types/api.ts` -/

/-- `role: 'user' | 'assistant'` of `ConversationMessage`. -/
inductive Role where
  | user
  | assistant
deriving DecidableEq

/-- `ConversationMessage` from `types/api.ts`; the `Date` timestamp is
modelled as milliseconds since the epoch. -/
structure ConversationMessage where
  role : Role
  content : String
  timestamp : Nat
deriving DecidableEq

/-- `UserContext` from `types/api.ts`. -/
structure UserContext where
  location : Option String
  language_preference : String
  interests : List String
  budget_range : Option String
deriving DecidableEq

/-- `ChatRequest` from `types/api.ts`. -/
structure ChatRequest where
  message : String
  conversation_id : Option String
  conversation_history : List ConversationMessage
  user_context : Option UserContext
deriving DecidableEq

/-- `Source` from `types/api.ts`; the relevance score is a rational in
place of the TypeScript `number`. -/
structure Source where
  title : String
  content : String
  url : Option String
  relevance_score : ℚ
deriving DecidableEq

/-- `ChatResponse` from `types/api.ts`.  The frontend declares
`conversation_id` optional. -/
structure ChatResponse where
  message : String
  sources : List Source
  conversation_id : Option String
deriving DecidableEq

/-! ## Chat page submit handler, from `Chat.tsx` (`handleSubmit`) -/

/-- JavaScript `String.prototype.trim()`: drop whitespace from both ends.
Defined by structural recursion over the character data. -/
def jsTrim (s : String) : String :=
  ⟨((s.data.dropWhile Char.isWhitespace).reverse.dropWhile Char.isWhitespace).reverse⟩

/-- The user message appended by `handleSubmit`:
`{ role: 'user', content: currentMessage.trim(), timestamp: new Date() }`. -/
def mkUserMessage (currentMessage : String) (now : Nat) : ConversationMessage :=
  ⟨Role.user, jsTrim currentMessage, now⟩

/-- `handleSubmit` of the Chat page.  Returns `none` when the guard
`if (!currentMessage.trim() || isLoading) return` fires (the empty string is
falsy in JavaScript), otherwise the `ChatRequest` passed to `sendMessage`
together with the new local message list.  The request's
`conversation_history` is `newMessages.slice(0, -1)`, i.e. the history
without the message being sent. -/
def handleSubmit (messages : List ConversationMessage) (currentMessage : String)
    (isLoading : Bool) (conversationId : Option String) (userContext : UserContext)
    (now : Nat) : Option (ChatRequest × List ConversationMessage) :=
  if jsTrim currentMessage = "" ∨ isLoading = true then none
  else
    let userMessage := mkUserMessage currentMessage now
    let newMessages := messages ++ [userMessage]
    some ({ message := userMessage.content,
            conversation_id := conversationId,
            conversation_history := newMessages.dropLast,
            user_context := some userContext }, newMessages)

/-! ## API context, from `ApiContext.tsx` -/

/-- The fields of an axios failure that `handleApiCall` inspects:
`err.response?.data?.detail` and `err.message`. -/
structure ApiError where
  detail : Option String
  message : Option String
deriving DecidableEq

/-- JavaScript `a || b` over a possibly-missing string: a missing or empty
string falls through to the right operand. -/
def jsOrElse (a : Option String) (b : String) : String :=
  match a with
  | some s => if s = "" then b else s
  | none => b

/-- `err.response?.data?.detail || err.message || 'An error occurred'`. -/
def errorMessageOf (e : ApiError) : String :=
  jsOrElse e.detail (jsOrElse e.message "An error occurred")

/-- The two pieces of state held by the API provider:
`isLoading` and `error`. -/
structure ApiState where
  isLoading : Bool
  error : Option String
deriving DecidableEq

/-- `handleApiCall` of `ApiContext.tsx`: sets `isLoading` and clears
`error`, runs the call, on failure records the human-readable message and
re-throws it, and in all cases resets `isLoading` in the `finally` block.
The returned pair is (what the caller of the wrapper observes, the provider
state after the call settles). -/
def handleApiCall {T : Type} (apiCall : Except ApiError T) (_s : ApiState) :
    Except String T × ApiState :=
  match apiCall with
  | Except.ok v => (Except.ok v, ⟨false, none⟩)
  | Except.error e =>
      let msg := errorMessageOf e
      (Except.error msg, ⟨false, some msg⟩)

/-- `sendMessage`: `handleApiCall` around `api.post('/api/chat', request)`.
The transport argument stands for the axios round trip. -/
def sendMessage (transport : ChatRequest → Except ApiError ChatResponse)
    (req : ChatRequest) (s : ApiState) : Except String ChatResponse × ApiState :=
  handleApiCall (transport req) s

/-- `ItineraryRequest` from `types/api.ts` (`budget` and `travel_style`
are string unions there, inductives here). -/
inductive BudgetBand where
  | low
  | medium
  | high
deriving DecidableEq

/-- `travel_style: 'slow' | 'moderate' | 'fast'` from `types/api.ts`. -/
inductive TravelStyle where
  | slow
  | moderate
  | fast
deriving DecidableEq

/-- `ItineraryRequest` from `types/api.ts`. -/
structure ItineraryRequest where
  duration : Nat
  interests : List String
  budget : BudgetBand
  accommodation : Option String
  travel_style : TravelStyle
  group_size : Nat
  special_requirements : List String
deriving DecidableEq

/-- An `Activity` of a generated `DayPlan`, from `types/api.ts`; the
display strings other than the name are dropped, the `time` string is
modelled as a start minute and the `duration` string as minutes. -/
structure PlannedActivity where
  name : String
  startMin : Nat
  durationMin : Nat
  cost : Nat
deriving DecidableEq

/-- `DayPlan` from `types/api.ts`. -/
structure DayPlan where
  day : Nat
  activities : List PlannedActivity
deriving DecidableEq

/-- `ItineraryResponse` from `types/api.ts`. -/
structure ItineraryResponse where
  itinerary : List DayPlan
  total_estimated_cost : Option Nat
  tips : List String
deriving DecidableEq

/-- `generateItinerary`: `handleApiCall` around
`api.post('/api/itinerary', request)`. -/
def generateItinerary (transport : ItineraryRequest → Except ApiError ItineraryResponse)
    (req : ItineraryRequest) (s : ApiState) : Except String ItineraryResponse × ApiState :=
  handleApiCall (transport req) s

/-- `TranslationRequest` from `types/api.ts`. -/
structure TranslationRequest where
  text : String
  source_language : String
  target_language : String
  context_type : Option String
deriving DecidableEq

/-- `TranslationResponse` from `types/api.ts`. -/
structure TranslationResponse where
  translated_text : String
  original_text : Option String
  cultural_context : Option String
  confidence : ℚ
deriving DecidableEq

/-- `translateText`: `handleApiCall` around
`api.post('/api/translate', request)`. -/
def translateText (transport : TranslationRequest → Except ApiError TranslationResponse)
    (req : TranslationRequest) (s : ApiState) : Except String TranslationResponse × ApiState :=
  handleApiCall (transport req) s

/-- `translateImage` posts a multipart form with the image file; the file
payload is opaque here. -/
def translateImage (transport : String → Except ApiError TranslationResponse)
    (imageFile : String) (s : ApiState) : Except String TranslationResponse × ApiState :=
  handleApiCall (transport imageFile) s

/-- `RecommendationRequest` from `types/api.ts` (`user_preferences` is a
free-form record there; its two used fields are spelled out). -/
structure RecommendationRequest where
  interests : List String
  budget : String
  current_location : Option String
  time_context : Option String
  limit : Nat
deriving DecidableEq

/-- `Recommendation` from `types/api.ts`. -/
structure Recommendation where
  name : String
  description : String
  category : String
  location : String
  rating : Option ℚ
  estimated_time : Option String
  cost_range : Option String
  reasons : List String
deriving DecidableEq

/-- `RecommendationResponse` from `types/api.ts`. -/
structure RecommendationResponse where
  recommendations : List Recommendation
deriving DecidableEq

/-- `getRecommendations`: `handleApiCall` around
`api.post('/api/recommendations', request)`. -/
def getRecommendations (transport : RecommendationRequest → Except ApiError RecommendationResponse)
    (req : RecommendationRequest) (s : ApiState) : Except String RecommendationResponse × ApiState :=
  handleApiCall (transport req) s

/-! ## Response Cache

The backend engine is not in the repository; the definitions below are
modelled from the specification, section 4.1. -/

/-- Modelled from the spec: a `CacheEntry` of the backend Response Cache
(absent from the repository) — stored value, creation time and expiry. -/
structure CacheEntry (α : Type) where
  value : α
  createdAt : Nat
  expiresAt : Nat
deriving DecidableEq

/-- Modelled from the spec: the Response Cache state (absent from the
repository), an association list from fingerprints to entries plus a
counter of upstream generative calls (the call counter of the stub
provider in the testable properties). -/
structure CacheState (α : Type) where
  entries : List (String × CacheEntry α)
  upstreamCalls : Nat
deriving DecidableEq

/-- First entry stored under a fingerprint, if any. -/
def lookupEntry {α : Type} (fp : String) : List (String × CacheEntry α) → Option (CacheEntry α)
  | [] => none
  | (k, e) :: rest => if k = fp then some e else lookupEntry fp rest

/-- Modelled from the spec: `get_or_compute(fingerprint, compute_fn)` of
the backend Response Cache (absent from the repository).  On a hit with an
unexpired entry it returns immediately without invoking the compute
function; on a miss or an expired entry it runs the compute function once
(counted as one upstream call), stores the result with expiry
`now + ttl`, and lazily drops the stale entry for that key. -/
def getOrCompute {α : Type} (now ttl : Nat) (fp : String) (computeFn : Unit → α)
    (st : CacheState α) : α × CacheState α :=
  match lookupEntry fp st.entries with
  | some e =>
      if now < e.expiresAt then (e.value, st)
      else
        let v := computeFn ()
        (v, ⟨(fp, ⟨v, now, now + ttl⟩) :: st.entries.filter (fun p => p.1 != fp),
             st.upstreamCalls + 1⟩)
  | none =>
      let v := computeFn ()
      (v, ⟨(fp, ⟨v, now, now + ttl⟩) :: st.entries.filter (fun p => p.1 != fp),
           st.upstreamCalls + 1⟩)

/-! ## Chat handler conversation identifier

Modelled from the spec, sections 3 and 6: the server generates the opaque
conversation identifier on the first turn and every chat output carries
it. -/

/-- Modelled from the spec: the chat output contract of the backend
(absent from the repository) — `conversation_id` is a mandatory token
there, unlike the defensive optional field of the frontend type. -/
structure ServerChatResponse where
  message : String
  sources : List Source
  conversation_id : String
deriving DecidableEq

/-- Modelled from the spec: the server keeps a supplied identifier and
generates a fresh one on the first turn, when none is supplied. -/
def assignConversationId (supplied : Option String) (freshId : String) : String :=
  match supplied with
  | some t => t
  | none => freshId

/-- Modelled from the spec: the backend chat handler (absent from the
repository), restricted to how the response's conversation identifier is
produced; the answer text and sources are abstract inputs. -/
def handleChat (req : ChatRequest) (freshId : String) (answer : String)
    (srcs : List Source) : ServerChatResponse :=
  ⟨answer, srcs, assignConversationId req.conversation_id freshId⟩

/-! ## Knowledge Retriever

Modelled from the spec, section 4.2. -/

/-- `KnowledgeChunk` of the data model: identifier, text body, source
title and URL; the query-dependent relevance score is attached by
`retrieve`. -/
structure KnowledgeChunk where
  id : String
  body : String
  title : String
  url : Option String
deriving DecidableEq

/-- A knowledge chunk with its query-dependent relevance score. -/
structure ScoredChunk where
  chunk : KnowledgeChunk
  score : ℚ
deriving DecidableEq

/-- Descending-relevance order on scored chunks. -/
def descRel (a b : ScoredChunk) : Prop := b.score ≤ a.score

instance : DecidableRel descRel := fun a b => inferInstanceAs (Decidable (b.score ≤ a.score))

instance : IsTotal ScoredChunk descRel := ⟨fun a b => le_total b.score a.score⟩

instance : IsTrans ScoredChunk descRel := ⟨fun _ _ _ hab hbc => le_trans hbc hab⟩

/-- Modelled from the spec: `retrieve(query, top_k)` of the backend
Knowledge Retriever (absent from the repository).  The black-box
nearest-neighbor index is abstracted into the per-query scoring function
`scoreOf`; fragments scoring below `minScore` are dropped even if among
the top-K, the rest are ordered by descending relevance, and the first
`topK` are returned. -/
def retrieve (scoreOf : KnowledgeChunk → ℚ) (minScore : ℚ) (topK : Nat)
    (index : List KnowledgeChunk) : List ScoredChunk :=
  let scored := index.map (fun c => ScoredChunk.mk c (scoreOf c))
  let kept := scored.filter (fun s => decide (minScore ≤ s.score))
  (kept.insertionSort descRel).take topK

/-! ## Error taxonomy and retry policy

Modelled from the spec, sections 5 and 7. -/

/-- The error taxonomy of the specification, section 7. -/
inductive EngineError where
  | RetrievalUnavailable
  | ProviderTimeout
  | MalformedGeneration
  | QuotaExceeded
  | InvalidRequest
deriving DecidableEq

/-- Modelled from the spec: which failures the request handler may retry
once — only the transient `ProviderTimeout` and `MalformedGeneration`;
`QuotaExceeded` and `InvalidRequest` are surfaced immediately. -/
def retryableOnce : EngineError → Bool
  | EngineError.ProviderTimeout => true
  | EngineError.MalformedGeneration => true
  | _ => false

/-- Modelled from the spec: the Generation Orchestrator (absent from the
repository) invokes the external provider exactly once per cache miss and
contains no retry loop.  `provider n` is the provider's answer to its
`n`-th invocation; the second component counts invocations made. -/
def orchestrate {α : Type} (provider : Nat → Except EngineError α) :
    Except EngineError α × Nat :=
  (provider 0, 1)

/-- Modelled from the spec: the request handler around the orchestrator
(absent from the repository): it retries a transient failure at most
once and then surfaces whatever the second attempt produced; other
failures are surfaced immediately.  The second component counts provider
invocations. -/
def handleWithRetry {α : Type} (provider : Nat → Except EngineError α) :
    Except EngineError α × Nat :=
  match orchestrate provider with
  | (Except.ok v, n) => (Except.ok v, n)
  | (Except.error e, n) =>
      if retryableOnce e then
        let second := orchestrate (fun k => provider (k + 1))
        (second.1, n + second.2)
      else (Except.error e, n)

/-! ## Conversation Context Manager

Modelled from the spec, section 4.3. -/

/-- Size of one message, counted on its content. -/
def messageSize (m : ConversationMessage) : Nat := m.content.length

/-- Cumulative size of a history. -/
def totalSize (l : List ConversationMessage) : Nat := (l.map messageSize).sum

/-- Modelled from the spec: `assemble_context` of the backend Conversation
Context Manager (absent from the repository).  History is kept in
insertion order (oldest first); while the cumulative size exceeds the
budget, messages are dropped from the oldest end only, but the most
recent `keepTurns` turns are always preserved verbatim; nothing is
summarized. -/
def assembleContext (budget keepTurns : Nat) : List ConversationMessage → List ConversationMessage
  | [] => []
  | m :: rest =>
      if totalSize (m :: rest) ≤ budget ∨ (m :: rest).length ≤ keepTurns then m :: rest
      else assembleContext budget keepTurns rest

/-! ## Itinerary Constraint Planner

Modelled from the spec, section 4.4, with the request shape and the
produced `DayPlan`/`Activity` shape taken from `types/api.ts` and the
band/pace figures from the option lists of `Itinerary.tsx`. -/

/-- Modelled from the spec: the HK$ day budget implied by the budget band
(`Itinerary.tsx`: low `HK$200-500/day`, medium `HK$500-1000/day`, high
`HK$1000+/day`).  The cap of each band is used; the high band has no
upper cap in the source material and is modelled with 10000. -/
def dayBudget : BudgetBand → Nat
  | BudgetBand.low => 500
  | BudgetBand.medium => 1000
  | BudgetBand.high => 10000

/-- Modelled from the spec: the activities-per-day target derived from the
travel style (`Itinerary.tsx`: slow `2-3`, moderate `3-4`, fast `4-5`
activities per day); the top of each range is used as the target count. -/
def paceTarget : TravelStyle → Nat
  | TravelStyle.slow => 3
  | TravelStyle.moderate => 4
  | TravelStyle.fast => 5

/-- A candidate activity fed to the planner, with the metadata the greedy
selection consults: category (interest tag), area, cost in HK$, duration
in minutes and an intrinsic popularity signal. -/
structure Candidate where
  name : String
  category : String
  area : String
  cost : Nat
  durationMin : Nat
  popularity : Nat
deriving DecidableEq

/-- Modelled from the spec (planner step 2): keep the candidates matching
a requested interest; if no interest is specified, use all. -/
def filterByInterests (interests : List String) (cands : List Candidate) : List Candidate :=
  if interests.isEmpty then cands
  else cands.filter (fun c => interests.contains c.category)

/-- Ranking order for the greedy selection: higher popularity first;
`insertionSort` is stable, so ties keep the original candidate order
(the tie-break rule of planner step 3). -/
def popRel (a b : Candidate) : Prop := b.popularity ≤ a.popularity

instance : DecidableRel popRel := fun a b => inferInstanceAs (Decidable (b.popularity ≤ a.popularity))

/-- Modelled from the spec (planner step 3 and the tie-break rule): rank
the interest-filtered candidates by the intrinsic popularity signal,
stably. -/
def rankCandidates (cands : List Candidate) : List Candidate :=
  cands.insertionSort popRel

/-- Modelled from the spec (planner steps 3 and 5): fill one day by
walking the ranked unused candidates in order, taking each until the
target count is reached; a candidate whose cost exceeds the remaining day
budget is skipped — never accepted over budget — and stays available.
Returns the day's picks and the candidates left unused. -/
def fillDay (target remaining : Nat) : List Candidate → List Candidate × List Candidate
  | [] => ([], [])
  | c :: rest =>
      if target = 0 then ([], c :: rest)
      else if c.cost ≤ remaining then
        let next := fillDay (target - 1) (remaining - c.cost) rest
        (c :: next.1, next.2)
      else
        let next := fillDay target remaining rest
        (next.1, c :: next.2)

/-- Modelled from the spec (planner step 4): assign an increasing time
sequence, each activity starting where the previous one ends plus a
30-minute transfer gap; the first activity of a day starts at 9:00
(minute 540). -/
def scheduleFrom (start : Nat) : List Candidate → List PlannedActivity
  | [] => []
  | c :: rest => ⟨c.name, start, c.durationMin, c.cost⟩ :: scheduleFrom (start + c.durationMin + 30) rest

/-- Start of a planned day, 9:00 in minutes. -/
def dayStartMin : Nat := 540

/-- Modelled from the spec: build the remaining `n` days in order, each
day greedily filled from the candidates the previous days left unused. -/
def planDaysAux (target budget : Nat) : Nat → Nat → List Candidate → List DayPlan
  | 0, _, _ => []
  | n + 1, dayIdx, cands =>
      let filled := fillDay target budget cands
      ⟨dayIdx, scheduleFrom dayStartMin filled.1⟩ ::
        planDaysAux target budget n (dayIdx + 1) filled.2

/-- Modelled from the spec: `plan(request, candidate_activities)` of the
Itinerary Constraint Planner (absent from the repository) — filter by
interests, rank, then fill the days in order. -/
def plan (req : ItineraryRequest) (cands : List Candidate) : List DayPlan :=
  planDaysAux (paceTarget req.travel_style) (dayBudget req.budget) req.duration 1
    (rankCandidates (filterByInterests req.interests cands))

/-- Modelled from the spec: request validation producing `InvalidRequest`
for genuine constraint violations — a duration of 0 days or a group size
of 0 (the data model requires duration ≥ 1 and group size ≥ 1); an empty
interest set is not a violation. -/
def validateRequest (req : ItineraryRequest) : Option EngineError :=
  if req.duration = 0 ∨ req.group_size = 0 then some EngineError.InvalidRequest
  else none

/-- Modelled from the spec: the itinerary request handler (absent from the
repository): validation happens before any external call, so a rejected
request makes zero upstream generative calls; a valid request plans and
makes its single generation call.  The second component counts upstream
calls. -/
def handleItinerary (req : ItineraryRequest) (cands : List Candidate) :
    Except EngineError (List DayPlan) × Nat :=
  match validateRequest req with
  | some e => (Except.error e, 0)
  | none => (Except.ok (plan req cands), 1)

/-- Sum of the costs of a day's planned activities. -/
def costSum (l : List PlannedActivity) : Nat := (l.map PlannedActivity.cost).sum

/-- Sum of the costs of a list of candidates. -/
def candCost (l : List Candidate) : Nat := (l.map Candidate.cost).sum

/-- Two planned activities in sequence: the earlier one starts strictly
first and its time window ends before the later one starts. -/
def before (a b : PlannedActivity) : Prop :=
  a.startMin < b.startMin ∧ a.startMin + a.durationMin ≤ b.startMin

/-- A concrete request used to evaluate the planner: 2 days, no interest
filter, medium budget, moderate pace, group of 2. -/
def cexRequest : ItineraryRequest :=
  ⟨2, [], BudgetBand.medium, none, TravelStyle.moderate, 2, []⟩

/-- A concrete candidate pool with a single cheap activity. -/
def cexPool : List Candidate :=
  [⟨"Star Ferry", "Sightseeing", "Tsim Sha Tsui", 5, 60, 9⟩]

/-- A concrete provider whose first invocation times out and whose second
succeeds. -/
def cexProvider : Nat → Except EngineError Nat :=
  fun n => if n = 0 then Except.error EngineError.ProviderTimeout else Except.ok 7

/-- A concrete two-chunk knowledge index. -/
def cexIndex : List KnowledgeChunk :=
  [⟨"a", "dim sum houses", "Dining", none⟩, ⟨"b", "metro map", "Transit", none⟩]

/-- A concrete per-query scoring function for `cexIndex` (integer-valued
rationals, so concrete runs reduce in the kernel). -/
def cexScoreOf (c : KnowledgeChunk) : ℚ :=
  if c.id = "a" then (9 : ℚ) else (1 : ℚ)

/-! ## Planner lemmas -/

theorem candCost_cons (c : Candidate) (l : List Candidate) :
    candCost (c :: l) = c.cost + candCost l := by
  simp [candCost]

/-- The candidates a day picks never cost more than the budget the day
started with: each pick is charged against the remaining budget and a
candidate that does not fit is skipped. -/
theorem fillDay_cost_le (l : List Candidate) : ∀ (target remaining : Nat),
    candCost (fillDay target remaining l).1 ≤ remaining := by
  induction l with
  | nil => intro t r; simp [fillDay, candCost]
  | cons c rest ih =>
      intro t r
      by_cases h0 : t = 0
      · simp [fillDay, h0, candCost]
      · by_cases hc : c.cost ≤ r
        · have ihr := ih (t - 1) (r - c.cost)
          simp only [fillDay, if_neg h0, if_pos hc, candCost_cons]
          omega
        · have ihr := ih t r
          simpa only [fillDay, if_neg h0, if_neg hc] using ihr

/-- A day never picks more than the target number of candidates. -/
theorem fillDay_length_le (l : List Candidate) : ∀ (target remaining : Nat),
    (fillDay target remaining l).1.length ≤ target := by
  induction l with
  | nil => intro t r; simp [fillDay]
  | cons c rest ih =>
      intro t r
      by_cases h0 : t = 0
      · simp [fillDay, h0]
      · by_cases hc : c.cost ≤ r
        · have ihr := ih (t - 1) (r - c.cost)
          simp only [fillDay, if_neg h0, if_pos hc, List.length_cons]
          omega
        · have ihr := ih t r
          simpa only [fillDay, if_neg h0, if_neg hc] using ihr

theorem scheduleFrom_length (l : List Candidate) : ∀ start,
    (scheduleFrom start l).length = l.length := by
  induction l with
  | nil => intro s; simp [scheduleFrom]
  | cons c rest ih => intro s; simp [scheduleFrom, ih]

theorem costSum_scheduleFrom (l : List Candidate) : ∀ start,
    costSum (scheduleFrom start l) = candCost l := by
  induction l with
  | nil => intro s; simp [scheduleFrom, costSum, candCost]
  | cons c rest ih =>
      intro s
      simp [scheduleFrom, costSum, candCost] at ih ⊢
      exact ih _

theorem scheduleFrom_start_le (l : List Candidate) : ∀ start,
    ∀ a ∈ scheduleFrom start l, start ≤ a.startMin := by
  induction l with
  | nil => intro s a ha; simp [scheduleFrom] at ha
  | cons c rest ih =>
      intro s a ha
      simp only [scheduleFrom, List.mem_cons] at ha
      rcases ha with h | h
      · rw [h]
      · have := ih (s + c.durationMin + 30) a h
        omega

/-- The schedule of a day is time-ordered with non-overlapping windows:
every later activity starts strictly after an earlier one, at or past the
end of its window. -/
theorem scheduleFrom_pairwise (l : List Candidate) : ∀ start,
    (scheduleFrom start l).Pairwise before := by
  induction l with
  | nil => intro s; simp [scheduleFrom]
  | cons c rest ih =>
      intro s
      simp only [scheduleFrom]
      refine List.Pairwise.cons ?_ (ih _)
      intro b hb
      have hs := scheduleFrom_start_le rest (s + c.durationMin + 30) b hb
      simp only [before]
      constructor <;> omega

/-- Every day a plan contains is some pool's greedy fill, scheduled from
the day start. -/
theorem planDaysAux_mem_shape (target budget : Nat) :
    ∀ (n dayIdx : Nat) (cands : List Candidate) (d : DayPlan),
      d ∈ planDaysAux target budget n dayIdx cands →
      ∃ pool, d.activities = scheduleFrom dayStartMin (fillDay target budget pool).1 := by
  intro n
  induction n with
  | zero => intro dayIdx cands d hd; simp [planDaysAux] at hd
  | succ n ih =>
      intro dayIdx cands d hd
      simp only [planDaysAux, List.mem_cons] at hd
      rcases hd with h | h
      · exact ⟨cands, by rw [h]⟩
      · exact ih _ _ _ h

/-- When every candidate is affordable (cost at most `f`, with a day
budget of at least `target * f`), the greedy fill never skips: it picks
the first `target` candidates and leaves exactly the rest. -/
theorem fillDay_no_skip (f : Nat) (l : List Candidate) :
    ∀ (target remaining : Nat),
      (∀ c ∈ l, c.cost ≤ f) → target * f ≤ remaining →
      (fillDay target remaining l).1.length = min target l.length ∧
      (fillDay target remaining l).2 = l.drop target := by
  induction l with
  | nil => intro t r _ _; simp [fillDay]
  | cons c rest ih =>
      intro t r hcost hbud
      by_cases h0 : t = 0
      · simp [fillDay, h0]
      · obtain ⟨s, rfl⟩ : ∃ s, t = s + 1 := ⟨t - 1, by omega⟩
        have hcf : c.cost ≤ f := hcost c (List.mem_cons_self c rest)
        have hmul : (s + 1) * f = s * f + f := Nat.succ_mul s f
        have hfr : c.cost ≤ r := by omega
        have hrec := ih s (r - c.cost)
          (fun x hx => hcost x (List.mem_cons_of_mem c hx)) (by omega)
        simp only [fillDay, if_neg h0, if_pos hfr, Nat.add_sub_cancel]
        refine ⟨?_, ?_⟩
        · simp only [List.length_cons, hrec.1, Nat.succ_min_succ]
        · simp only [hrec.2, List.drop_succ_cons]

/-- When every candidate is affordable and at least `n * target`
candidates are available, every one of the `n` planned days reaches the
target count exactly. -/
theorem planDaysAux_exact (target budget f : Nat) :
    ∀ (n dayIdx : Nat) (pool : List Candidate),
      (∀ c ∈ pool, c.cost ≤ f) → target * f ≤ budget → n * target ≤ pool.length →
      ∀ d ∈ planDaysAux target budget n dayIdx pool, d.activities.length = target := by
  intro n
  induction n with
  | zero => intro dayIdx pool _ _ _ d hd; simp [planDaysAux] at hd
  | succ n ih =>
      intro dayIdx pool hcost hbud hlen d hd
      have hfill := fillDay_no_skip f pool target budget hcost hbud
      have hmul : (n + 1) * target = n * target + target := Nat.succ_mul n target
      simp only [planDaysAux, List.mem_cons] at hd
      rcases hd with h | h
      · have htle : target ≤ pool.length := by omega
        rw [h]
        show (scheduleFrom dayStartMin (fillDay target budget pool).1).length = target
        rw [scheduleFrom_length, hfill.1]
        exact min_eq_left htle
      · rw [hfill.2] at h
        refine ih _ _ (fun x hx => hcost x (List.mem_of_mem_drop hx)) hbud ?_ d h
        have := List.length_drop target pool
        omega

/-! ## Context-manager lemmas -/

/-- The assembled context is a suffix of the history: insertion order is
kept, messages are removed from the oldest end only and the kept ones are
verbatim. -/
theorem assembleContext_suffix (budget keepTurns : Nat) :
    ∀ hist : List ConversationMessage,
      assembleContext budget keepTurns hist <:+ hist := by
  intro hist
  induction hist with
  | nil => simp [assembleContext]
  | cons m rest ih =>
      by_cases h : totalSize (m :: rest) ≤ budget ∨ (m :: rest).length ≤ keepTurns
      · simp only [assembleContext]
        rw [if_pos h]
      · simp only [assembleContext]
        rw [if_neg h]
        exact ih.trans (List.suffix_cons m rest)

/-- The most recent `keepTurns` turns of the history survive assembly
verbatim. -/
theorem assembleContext_keeps_recent (budget keepTurns : Nat) :
    ∀ hist : List ConversationMessage,
      hist.drop (hist.length - keepTurns) <:+ assembleContext budget keepTurns hist := by
  intro hist
  induction hist with
  | nil => simp [assembleContext]
  | cons m rest ih =>
      by_cases h : totalSize (m :: rest) ≤ budget ∨ (m :: rest).length ≤ keepTurns
      · simp only [assembleContext]
        rw [if_pos h]
        exact List.drop_suffix _ _
      · simp only [assembleContext]
        rw [if_neg h]
        push_neg at h
        have hlen : keepTurns ≤ rest.length := by
          have := h.2
          simp only [List.length_cons] at this
          omega
        have hdrop : (m :: rest).length - keepTurns = (rest.length - keepTurns) + 1 := by
          simp only [List.length_cons]
          omega
        rw [hdrop, List.drop_succ_cons]
        exact ih

/-- Assembly stops dropping once the history fits the budget; the only
other way it stops is the floor of `keepTurns` preserved turns. -/
theorem assembleContext_within_budget (budget keepTurns : Nat) :
    ∀ hist : List ConversationMessage,
      totalSize (assembleContext budget keepTurns hist) ≤ budget ∨
        (assembleContext budget keepTurns hist).length ≤ keepTurns := by
  intro hist
  induction hist with
  | nil => left; simp [assembleContext, totalSize]
  | cons m rest ih =>
      by_cases h : totalSize (m :: rest) ≤ budget ∨ (m :: rest).length ≤ keepTurns
      · simp only [assembleContext]
        rw [if_pos h]
        exact h
      · simp only [assembleContext]
        rw [if_neg h]
        exact ih

/-! ## Claim theorems -/

/-- C1: issuing the same request twice within the cache TTL yields the
same (hence byte-identical) response and exactly one upstream generative
call: the first `getOrCompute` on a missing fingerprint computes and
counts one upstream call, while the second within the TTL returns the
cached value with the state — and so the upstream-call counter —
untouched. -/
theorem cache_hit_within_ttl_single_upstream_call {α : Type} (ttl t1 t2 : Nat) (fp : String)
    (computeFn : Unit → α) (st : CacheState α)
    (hmiss : lookupEntry fp st.entries = none)
    (_horder : t1 ≤ t2) (httl : t2 < t1 + ttl) :
    ((getOrCompute t2 ttl fp computeFn (getOrCompute t1 ttl fp computeFn st).2).1 =
      (getOrCompute t1 ttl fp computeFn st).1) ∧
    ((getOrCompute t1 ttl fp computeFn st).2.upstreamCalls = st.upstreamCalls + 1) ∧
    ((getOrCompute t2 ttl fp computeFn (getOrCompute t1 ttl fp computeFn st).2).2 =
      (getOrCompute t1 ttl fp computeFn st).2) := by
  have h1 : getOrCompute t1 ttl fp computeFn st =
      (computeFn (),
        ⟨(fp, ⟨computeFn (), t1, t1 + ttl⟩) :: st.entries.filter (fun p => p.1 != fp),
          st.upstreamCalls + 1⟩) := by
    unfold getOrCompute
    rw [hmiss]
  have h2 : lookupEntry fp
      ((fp, (⟨computeFn (), t1, t1 + ttl⟩ : CacheEntry α)) ::
        st.entries.filter (fun p => p.1 != fp)) = some ⟨computeFn (), t1, t1 + ttl⟩ := by
    simp [lookupEntry]
  rw [h1]
  refine ⟨?_, rfl, ?_⟩ <;>
  · show _ = _
    unfold getOrCompute
    rw [h2]
    simp [httl]

/-- C1 witness: a chat fingerprint asked at t=0 and again at t=60 with a
600-second TTL. -/
theorem cache_hit_within_ttl_single_upstream_call_witness :
    ((getOrCompute 60 600 "chat:dim-sum-tst" (fun _ => "grounded answer")
        (getOrCompute 0 600 "chat:dim-sum-tst" (fun _ => "grounded answer")
          (⟨[], 0⟩ : CacheState String)).2).1 =
      (getOrCompute 0 600 "chat:dim-sum-tst" (fun _ => "grounded answer")
        (⟨[], 0⟩ : CacheState String)).1) ∧
    ((getOrCompute 0 600 "chat:dim-sum-tst" (fun _ => "grounded answer")
        (⟨[], 0⟩ : CacheState String)).2.upstreamCalls =
      (⟨[], 0⟩ : CacheState String).upstreamCalls + 1) ∧
    ((getOrCompute 60 600 "chat:dim-sum-tst" (fun _ => "grounded answer")
        (getOrCompute 0 600 "chat:dim-sum-tst" (fun _ => "grounded answer")
          (⟨[], 0⟩ : CacheState String)).2).2 =
      (getOrCompute 0 600 "chat:dim-sum-tst" (fun _ => "grounded answer")
        (⟨[], 0⟩ : CacheState String)).2) :=
  cache_hit_within_ttl_single_upstream_call 600 0 60 "chat:dim-sum-tst"
    (fun _ => "grounded answer") ⟨[], 0⟩ rfl (by decide) (by decide)

/-- C2: every day of a produced itinerary keeps the sum of its activity
costs within the day budget implied by the requested budget band; the
greedy fill skips a candidate that would exceed the remaining budget. -/
theorem itinerary_day_budget_invariant (req : ItineraryRequest) (cands : List Candidate)
    (d : DayPlan) (hd : d ∈ plan req cands) :
    costSum d.activities ≤ dayBudget req.budget := by
  obtain ⟨pool, hpool⟩ := planDaysAux_mem_shape (paceTarget req.travel_style)
    (dayBudget req.budget) req.duration 1 _ d hd
  rw [hpool, costSum_scheduleFrom]
  exact fillDay_cost_le pool _ _

/-- C2 witness: the first day planned for the concrete request stays
within the medium band's HK$1000 day budget. -/
theorem itinerary_day_budget_invariant_witness :
    costSum (⟨1, [⟨"Star Ferry", 540, 60, 5⟩]⟩ : DayPlan).activities ≤
      dayBudget cexRequest.budget :=
  itinerary_day_budget_invariant cexRequest cexPool
    ⟨1, [⟨"Star Ferry", 540, 60, 5⟩]⟩ (by decide)

/-- C3 counterexample: with a single candidate and a two-day moderate
request the planner produces a first (non-last) day with 1 activity while
the pace target is 4 — a non-last day does not always meet the target. -/
theorem itinerary_pace_claim_counterexample :
    plan cexRequest cexPool = [⟨1, [⟨"Star Ferry", 540, 60, 5⟩]⟩, ⟨2, []⟩] ∧
    paceTarget cexRequest.travel_style = 4 := by
  decide

/-- C3 amended: every day of a produced itinerary has at most the pace
target many activities (a non-last day may fall short when the unused
candidates are exhausted or unaffordable), the activities of a day are
time-ordered with non-overlapping windows, and when every
interest-matching candidate is affordable (cost × pace target within the
day budget) and at least duration × pace target candidates are available,
every day — in particular every day but the last — meets the pace target
exactly. -/
theorem itinerary_pace_amended (req : ItineraryRequest) (cands : List Candidate)
    (d : DayPlan) (hd : d ∈ plan req cands) :
    d.activities.length ≤ paceTarget req.travel_style ∧
    d.activities.Pairwise before ∧
    ((∀ c ∈ rankCandidates (filterByInterests req.interests cands),
        c.cost * paceTarget req.travel_style ≤ dayBudget req.budget) →
      req.duration * paceTarget req.travel_style ≤
        (rankCandidates (filterByInterests req.interests cands)).length →
      d.activities.length = paceTarget req.travel_style) := by
  obtain ⟨pool, hpool⟩ := planDaysAux_mem_shape (paceTarget req.travel_style)
    (dayBudget req.budget) req.duration 1 _ d hd
  refine ⟨?_, ?_, ?_⟩
  · rw [hpool, scheduleFrom_length]
    exact fillDay_length_le pool _ _
  · rw [hpool]
    exact scheduleFrom_pairwise _ _
  · intro hcost hlen
    have htpos : 0 < paceTarget req.travel_style := by
      cases req.travel_style <;> decide
    refine planDaysAux_exact (paceTarget req.travel_style) (dayBudget req.budget)
      (dayBudget req.budget / paceTarget req.travel_style) req.duration 1 _
      (fun c hc => (Nat.le_div_iff_mul_le htpos).2 (hcost c hc)) ?_ hlen d hd
    calc paceTarget req.travel_style * (dayBudget req.budget / paceTarget req.travel_style)
        = dayBudget req.budget / paceTarget req.travel_style * paceTarget req.travel_style :=
          Nat.mul_comm _ _
      _ ≤ dayBudget req.budget := Nat.div_mul_le_self _ _

/-- C3 amended witness: the concrete first day respects the pace bound. -/
theorem itinerary_pace_amended_witness :
    (⟨1, [⟨"Star Ferry", 540, 60, 5⟩]⟩ : DayPlan).activities.length ≤
      paceTarget cexRequest.travel_style :=
  (itinerary_pace_amended cexRequest cexPool
    ⟨1, [⟨"Star Ferry", 540, 60, 5⟩]⟩ (by decide)).1

/-- C4: an empty interest set defaults to the full candidate pool rather
than a rejection, while a genuine constraint violation (duration 0, or
group size 0) is rejected as `InvalidRequest` with zero upstream calls —
before any external call; a valid request plans and makes its single
upstream call. -/
theorem itinerary_empty_interests_and_invalid_request (req : ItineraryRequest)
    (cands : List Candidate) :
    (req.interests = [] → filterByInterests req.interests cands = cands) ∧
    (req.duration = 0 →
      handleItinerary req cands = (Except.error EngineError.InvalidRequest, 0)) ∧
    (req.duration ≠ 0 → req.group_size ≠ 0 →
      handleItinerary req cands = (Except.ok (plan req cands), 1)) := by
  refine ⟨?_, ?_, ?_⟩
  · intro h
    simp [filterByInterests, h]
  · intro h
    simp [handleItinerary, validateRequest, h]
  · intro h1 h2
    simp [handleItinerary, validateRequest, h1, h2]

/-- C4 witness: the concrete empty-interest request keeps the whole pool
and is served with one upstream call; the same request with duration 0 is
rejected with zero upstream calls. -/
theorem itinerary_empty_interests_and_invalid_request_witness :
    (filterByInterests cexRequest.interests cexPool = cexPool) ∧
    (handleItinerary cexRequest cexPool = (Except.ok (plan cexRequest cexPool), 1)) ∧
    (handleItinerary (⟨0, [], BudgetBand.medium, none, TravelStyle.moderate, 2, []⟩ :
        ItineraryRequest) cexPool = (Except.error EngineError.InvalidRequest, 0)) :=
  ⟨(itinerary_empty_interests_and_invalid_request cexRequest cexPool).1 rfl,
   (itinerary_empty_interests_and_invalid_request cexRequest cexPool).2.2
      (by decide) (by decide),
   (itinerary_empty_interests_and_invalid_request
      ⟨0, [], BudgetBand.medium, none, TravelStyle.moderate, 2, []⟩ cexPool).2.1 rfl⟩

/-- C5: every chat response carries a conversation identifier: the one
supplied by the request, or a server-generated fresh one on the first
turn; a follow-up request quoting the returned identifier keeps it, so
turns correlate. -/
theorem chat_response_carries_conversation_id (req : ChatRequest) (freshId answer : String)
    (srcs : List Source) :
    ((handleChat req freshId answer srcs).conversation_id =
      assignConversationId req.conversation_id freshId) ∧
    (req.conversation_id = none →
      (handleChat req freshId answer srcs).conversation_id = freshId) ∧
    (∀ t, req.conversation_id = some t →
      (handleChat req freshId answer srcs).conversation_id = t) ∧
    (∀ req2 fresh2 a2 s2, req2.conversation_id =
        some (handleChat req freshId answer srcs).conversation_id →
      (handleChat req2 fresh2 a2 s2).conversation_id =
        (handleChat req freshId answer srcs).conversation_id) := by
  refine ⟨rfl, ?_, ?_, ?_⟩
  · intro h
    simp [handleChat, assignConversationId, h]
  · intro t h
    simp [handleChat, assignConversationId, h]
  · intro req2 f2 a2 s2 h
    simp [handleChat, assignConversationId, h]

/-- C5 witness: a first turn without an identifier gets the freshly
generated one. -/
theorem chat_response_carries_conversation_id_witness :
    (handleChat ⟨"hello", none, [], none⟩ "conv-1" "welcome" []).conversation_id = "conv-1" :=
  (chat_response_carries_conversation_id ⟨"hello", none, [], none⟩ "conv-1" "welcome" []).2.1 rfl

/-- C6: the retriever returns chunks in descending relevance order, never
returns a chunk scoring below the configured minimum — even one that
would otherwise be among the top-K — and returns at most top-K chunks. -/
theorem retrieve_descending_thresholded_topk (scoreOf : KnowledgeChunk → ℚ) (minScore : ℚ)
    (topK : Nat) (index : List KnowledgeChunk) :
    (retrieve scoreOf minScore topK index).Pairwise descRel ∧
    (∀ s ∈ retrieve scoreOf minScore topK index, minScore ≤ s.score) ∧
    (retrieve scoreOf minScore topK index).length ≤ topK := by
  refine ⟨?_, ?_, ?_⟩
  · simp only [retrieve]
    exact List.Pairwise.sublist (List.take_sublist _ _)
      (List.sorted_insertionSort descRel _)
  · intro s hs
    simp only [retrieve] at hs
    have h1 := List.mem_of_mem_take hs
    have h2 := (List.mem_insertionSort descRel).1 h1
    have h3 := List.mem_filter.1 h2
    exact of_decide_eq_true h3.2
  · simp only [retrieve, List.length_take]
    exact Nat.min_le_left _ _

/-- C6 witness: on the concrete index with threshold 5, the dining chunk
(score 9) is returned and satisfies the threshold. -/
theorem retrieve_descending_thresholded_topk_witness :
    (5 : ℚ) ≤ (⟨⟨"a", "dim sum houses", "Dining", none⟩, (9 : ℚ)⟩ : ScoredChunk).score :=
  (retrieve_descending_thresholded_topk cexScoreOf (5 : ℚ) 5 cexIndex).2.1
    ⟨⟨"a", "dim sum houses", "Dining", none⟩, (9 : ℚ)⟩ (by decide)

/-- C7: the orchestrator makes exactly one provider call per invocation
(no retry loop of its own); the handler around it retries only the
transient `ProviderTimeout` and `MalformedGeneration`, at most once, then
surfaces the second outcome, while `QuotaExceeded` and `InvalidRequest`
are surfaced immediately with a single call. -/
theorem retry_policy_bounded (α : Type) (provider : Nat → Except EngineError α) :
    ((orchestrate provider).2 = 1) ∧
    ((handleWithRetry provider).2 ≤ 2) ∧
    (∀ v, provider 0 = Except.ok v → handleWithRetry provider = (Except.ok v, 1)) ∧
    (∀ e, provider 0 = Except.error e → retryableOnce e = true →
      handleWithRetry provider = (provider 1, 2)) ∧
    (∀ e, provider 0 = Except.error e → retryableOnce e = false →
      handleWithRetry provider = (Except.error e, 1)) ∧
    (retryableOnce EngineError.QuotaExceeded = false) ∧
    (retryableOnce EngineError.InvalidRequest = false) ∧
    (retryableOnce EngineError.ProviderTimeout = true) ∧
    (retryableOnce EngineError.MalformedGeneration = true) := by
  refine ⟨rfl, ?_, ?_, ?_, ?_, rfl, rfl, rfl, rfl⟩
  · unfold handleWithRetry orchestrate
    cases provider 0 with
    | ok v => simp
    | error e =>
        by_cases hr : retryableOnce e <;> simp [hr]
  · intro v hv
    unfold handleWithRetry orchestrate
    rw [hv]
  · intro e he hr
    unfold handleWithRetry orchestrate
    rw [he]
    simp [hr]
  · intro e he hr
    unfold handleWithRetry orchestrate
    rw [he]
    simp [hr]

/-- C7 witness: a provider timing out once is retried exactly once and
the second outcome is surfaced, for two calls in total. -/
theorem retry_policy_bounded_witness :
    handleWithRetry cexProvider = (cexProvider 1, 2) :=
  (retry_policy_bounded Nat cexProvider).2.2.2.1 EngineError.ProviderTimeout rfl rfl

/-- C8: `assemble_context` keeps the history in insertion order and only
ever removes messages from the oldest end (the result is a verbatim
suffix — nothing is summarized), always preserves the most recent
`keepTurns` turns, and stops truncating once within the budget — the only
other stopping point being the preserved-turn floor. -/
theorem assemble_context_truncation_contract (budget keepTurns : Nat)
    (hist : List ConversationMessage) :
    (assembleContext budget keepTurns hist <:+ hist) ∧
    (hist.drop (hist.length - keepTurns) <:+ assembleContext budget keepTurns hist) ∧
    (min keepTurns hist.length ≤ (assembleContext budget keepTurns hist).length) ∧
    (totalSize (assembleContext budget keepTurns hist) ≤ budget ∨
      (assembleContext budget keepTurns hist).length ≤ keepTurns) := by
  refine ⟨assembleContext_suffix budget keepTurns hist,
    assembleContext_keeps_recent budget keepTurns hist, ?_,
    assembleContext_within_budget budget keepTurns hist⟩
  have h1 := (assembleContext_keeps_recent budget keepTurns hist).length_le
  rw [List.length_drop] at h1
  omega

/-- C9: every call routed through the API context resets the loading flag
once settled; a success clears the error state and returns the value; a
failure records the human-readable message (detail, then message, then
the generic fallback) and re-throws it; and each of the five endpoint
wrappers is exactly `handleApiCall` around its transport. -/
theorem api_context_loading_error_contract {T : Type} (call : Except ApiError T)
    (s : ApiState) :
    ((handleApiCall call s).2.isLoading = false) ∧
    (∀ v, call = Except.ok v → handleApiCall call s = (Except.ok v, ⟨false, none⟩)) ∧
    (∀ e, call = Except.error e →
      handleApiCall call s =
        (Except.error (errorMessageOf e), ⟨false, some (errorMessageOf e)⟩)) ∧
    (∀ transport req, sendMessage transport req s = handleApiCall (transport req) s) ∧
    (∀ transport req, generateItinerary transport req s = handleApiCall (transport req) s) ∧
    (∀ transport req, translateText transport req s = handleApiCall (transport req) s) ∧
    (∀ transport file, translateImage transport file s = handleApiCall (transport file) s) ∧
    (∀ transport req, getRecommendations transport req s = handleApiCall (transport req) s) := by
  refine ⟨?_, ?_, ?_, fun _ _ => rfl, fun _ _ => rfl, fun _ _ => rfl, fun _ _ => rfl,
    fun _ _ => rfl⟩
  · cases call <;> rfl
  · intro v hv
    rw [hv]
    rfl
  · intro e he
    rw [he]
    rfl

/-- C9 witness: a failed chat call with only an axios message ends not
loading, with the error state set to that message, re-thrown. -/
theorem api_context_loading_error_contract_witness :
    handleApiCall (Except.error ⟨none, some "Network Error"⟩ : Except ApiError ChatResponse)
        ⟨true, none⟩ =
      (Except.error "Network Error", ⟨false, some "Network Error"⟩) := by
  have h := (api_context_loading_error_contract
    (Except.error ⟨none, some "Network Error"⟩ : Except ApiError ChatResponse)
    ⟨true, none⟩).2.2.1 ⟨none, some "Network Error"⟩ rfl
  simpa [errorMessageOf, jsOrElse] using h

/-- C10: the Chat page sends a request exactly when the trimmed message is
non-empty and no request is in flight; the sent request's
`conversation_history` is exactly the prior messages — the message being
sent travels only in the `message` field. -/
theorem chat_submit_guard_and_history (messages : List ConversationMessage)
    (currentMessage : String) (isLoading : Bool) (conversationId : Option String)
    (userContext : UserContext) (now : Nat) :
    (jsTrim currentMessage ≠ "" → isLoading = false →
      handleSubmit messages currentMessage isLoading conversationId userContext now =
        some ({ message := jsTrim currentMessage,
                conversation_id := conversationId,
                conversation_history := messages,
                user_context := some userContext },
              messages ++ [mkUserMessage currentMessage now])) ∧
    (jsTrim currentMessage = "" ∨ isLoading = true →
      handleSubmit messages currentMessage isLoading conversationId userContext now = none) := by
  constructor
  · intro h1 h2
    have hcond : ¬(jsTrim currentMessage = "" ∨ isLoading = true) := by
      rw [h2]
      simp [h1]
    simp only [handleSubmit]
    rw [if_neg hcond]
    simp [mkUserMessage]
  · intro h
    simp only [handleSubmit]
    rw [if_pos h]

/-- C10 witness: a concrete submission with one prior message sends the
trimmed text and a history that excludes it. -/
theorem chat_submit_guard_and_history_witness :
    handleSubmit [⟨Role.assistant, "Welcome", 0⟩] " dim sum? " false none
        ⟨none, "en", ["food"], some "medium"⟩ 1 =
      some ({ message := jsTrim " dim sum? ",
              conversation_id := none,
              conversation_history := [⟨Role.assistant, "Welcome", 0⟩],
              user_context := some ⟨none, "en", ["food"], some "medium"⟩ },
            [⟨Role.assistant, "Welcome", 0⟩] ++ [mkUserMessage " dim sum? " 1]) :=
  (chat_submit_guard_and_history [⟨Role.assistant, "Welcome", 0⟩] " dim sum? " false none
    ⟨none, "en", ["food"], some "medium"⟩ 1).1 (by decide) rfl

end Tourism
